import Mathlib

/-!
Verification of the mSCP notebook (mscp-notebook.py): a shallow embedding of
the branch catalog cell, the baseline catalog cell, the repository sync cell
and the generation cell, together with theorems about the claims of the
specification.

Subprocess invocations are modelled by their observable results: an exit code
together with captured stdout and stderr, or a raised exception
(TimeoutExpired or any other), supplied as an environment to the embedded cell
functions.  All strings involved are ASCII (branch names, file stems and the
fixed messages of the notebook), so the ASCII versions of the Python case
conversions are used.  The Python string operations are implemented by
structural recursion on the character list of a string so that every
definition evaluates inside the kernel.
-/

namespace MSCP

/-- Test whether the second list starts with the first, used to implement the
Python `str.startswith` method and substring search. -/
def startsWithChars : List Char → List Char → Bool
  | [], _ => true
  | _ :: _, [] => false
  | p :: ps, c :: cs => p = c && startsWithChars ps cs

/-- Substring occurrence on character lists, the Python `x in s` operator. -/
def containsChars (pat : List Char) : List Char → Bool
  | [] => pat.isEmpty
  | c :: cs => startsWithChars pat (c :: cs) || containsChars pat cs

/-- Python `x in s` on strings. -/
def pyIn (needle hay : String) : Bool :=
  containsChars needle.data hay.data

/-- Python `s.startswith(p)` on strings. -/
def pyStartsWith (s p : String) : Bool :=
  startsWithChars p.data s.data

/-- Replacement of every non-overlapping occurrence of `pat` from the left,
the Python `str.replace` method.  The `Nat` argument is fuel, always called
with the length of the subject list; it only makes the recursion structural
and is never exhausted before the subject list is. -/
def replaceChars (pat rep : List Char) : Nat → List Char → List Char
  | _, [] => []
  | 0, s => s
  | fuel + 1, c :: cs =>
    if !pat.isEmpty && startsWithChars pat (c :: cs) then
      rep ++ replaceChars pat rep fuel (List.drop (pat.length - 1) cs)
    else
      c :: replaceChars pat rep fuel cs

/-- Python `s.replace(pat, rep)` on strings. -/
def pyReplace (s pat rep : String) : String :=
  String.mk (replaceChars pat.data rep.data s.data.length s.data)

/-- Python `s.lower()` for ASCII strings. -/
def pyLower (s : String) : String :=
  String.mk (s.data.map Char.toLower)

/-- Python `s.upper()` for ASCII strings. -/
def pyUpper (s : String) : String :=
  String.mk (s.data.map Char.toUpper)

/-- Python `s.strip()`: remove leading and trailing whitespace. -/
def pyStrip (s : String) : String :=
  String.mk (((s.data.dropWhile Char.isWhitespace).reverse.dropWhile
    Char.isWhitespace).reverse)

/-- Helper for `pyTitle`: the boolean records whether the previous character
was cased (an ASCII letter), as in the CPython implementation of
`str.title`. -/
def pyTitleAux : Bool → List Char → List Char
  | _, [] => []
  | prev, c :: cs =>
    if c.isAlpha then
      (if prev then c.toLower else c.toUpper) :: pyTitleAux true cs
    else
      c :: pyTitleAux false cs

/-- Python `str.title`: the first cased character of every word is uppercased,
all further cased characters are lowercased; uncased characters (digits,
spaces, punctuation) separate words. -/
def pyTitle (s : String) : String :=
  String.mk (pyTitleAux false s.data)

/-- Lexicographic comparison of character lists by code point, the order the
Python built-in `sorted` uses on strings. -/
def leChars : List Char → List Char → Bool
  | [], _ => true
  | _ :: _, [] => false
  | a :: as, b :: bs => if a = b then leChars as bs else decide (a < b)

/-- Python string comparison `a <= b` (code-point lexicographic order). -/
def pyLE (a b : String) : Bool :=
  leChars a.data b.data

/-! ### Association lists with Python dict semantics

The notebook builds its display mappings as Python dicts keyed by display
label.  `insertAssoc` models `d[k] = v`: an existing key keeps its position
and gets the new value, a new key is appended at the end.  `lookupAssoc`
models `d[k]` / `k in d`. -/

/-- Python dict assignment `d[k] = v` on an association list. -/
def insertAssoc (m : List (String × String)) (k v : String) :
    List (String × String) :=
  match m with
  | [] => [(k, v)]
  | (k1, v1) :: rest =>
    if k1 == k then (k, v) :: rest else (k1, v1) :: insertAssoc rest k v

/-- Python dict lookup `d.get(k)` on an association list. -/
def lookupAssoc (m : List (String × String)) (k : String) : Option String :=
  match m with
  | [] => none
  | (k1, v1) :: rest => if k1 == k then some v1 else lookupAssoc rest k

/-- Keys of an association list, in order. -/
def keysOf (m : List (String × String)) : List String :=
  m.map Prod.fst

/-- Entries of an association list carrying a given key. -/
def filterKey (k : String) (m : List (String × String)) :
    List (String × String) :=
  m.filter (fun p => p.1 == k)

/-! ### Branch catalog (mscp-notebook.py lines 101-127) -/

/-- Fixed lookup table `_platform_map` mapping known branch names to human
labels (mscp-notebook.py lines 103-118). -/
def platformMap : List (String × String) :=
  [("tahoe", "macOS 26 Tahoe"),
   ("sequoia", "macOS 15 Sequoia"),
   ("sonoma", "macOS 14 Sonoma"),
   ("ventura", "macOS 13 Ventura"),
   ("monterey", "macOS 12 Monterey"),
   ("big_sur", "macOS 11 Big Sur"),
   ("catalina", "macOS 10.15 Catalina"),
   ("ios_26", "iOS/iPadOS 26"),
   ("ios_18", "iOS/iPadOS 18"),
   ("ios_17", "iOS/iPadOS 17"),
   ("ios_16", "iOS/iPadOS 16"),
   ("visionos_26", "visionOS 26"),
   ("visionos_2", "visionOS 2"),
   ("main", "⚠️ main (development - not recommended)")]

/-- Predicate collecting the exclusion patterns of the branch filtering loop:
a branch name is excluded when it starts with `dev`, `nist-` or `505-` or
contains `_fix`, `_typo` or `create-`. -/
def excludedBranch (b : String) : Bool :=
  (pyStartsWith b "dev" || pyStartsWith b "nist-" || pyStartsWith b "505-") ||
  (pyIn "_fix" b || pyIn "_typo" b || pyIn "create-" b)

/-- One iteration of the branch filtering loop (mscp-notebook.py lines
121-127): a branch in the platform table is recorded under its label;
otherwise it is recorded verbatim unless it starts with `dev`, `nist-` or
`505-` or contains `_fix`, `_typo` or `create-`. -/
def branchStep (m : List (String × String)) (b : String) :
    List (String × String) :=
  match lookupAssoc platformMap b with
  | some lbl => insertAssoc m lbl b
  | none =>
    if !(pyStartsWith b "dev" || pyStartsWith b "nist-" || pyStartsWith b "505-") then
      if !(pyIn "_fix" b || pyIn "_typo" b || pyIn "create-" b) then
        insertAssoc m b b
      else m
    else m

/-- The display mapping `_branch_display` built by the branch filtering loop
from the raw branch list. -/
def buildBranchDisplay (bs : List String) : List (String × String) :=
  bs.foldl branchStep []

/-! ### Baseline catalog (mscp-notebook.py lines 304-341) -/

/-- Label derivation of the baseline catalog cell (mscp-notebook.py lines
314-340): from a baseline file stem, derive the display label shown in the
dropdown.  Translated clause by clause from the if/elif chain. -/
def baselineLabel (name : String) : String :=
  let display := pyReplace (pyReplace name "_" " ") "-" " "
  let lower := pyLower name
  if pyIn "byod" lower then
    "CIS " ++ pyTitle (pyReplace (pyReplace display "cis " "") "byod" "BYOD")
  else if pyIn "enterprise" lower then
    "CIS " ++ pyTitle (pyReplace (pyReplace display "cis " "") "enterprise" "Enterprise")
  else if pyIn "indigo" lower then
    "Indigo " ++ pyTitle (pyReplace display "indigo " "")
  else if pyIn "cis" lower then
    "CIS " ++ pyTitle (pyReplace display "cis " "")
  else if pyIn "800-53" name then
    "NIST " ++ pyUpper name
  else if pyIn "800-171" name then
    "NIST SP 800-171"
  else if pyIn "cmmc" lower then
    "CMMC " ++ pyTitle (pyReplace display "cmmc " "")
  else if pyIn "cnssi" lower then
    pyReplace (pyUpper name) "_" " "
  else if pyIn "all_rules" lower then
    "All Rules (complete)"
  else
    pyTitle display

/-- The dict `_baselines` built by the baseline scanning loop
(mscp-notebook.py lines 313-341) from the sorted list of file stems:
`_baselines[_display] = _name` for each stem in order. -/
def buildBaselines (names : List String) : List (String × String) :=
  names.foldl (fun m n => insertAssoc m (baselineLabel n) n) []

/-- The file name of a baseline stem, as enumerated by the glob
`*.yaml` over the baseline directory; the scan visits files sorted by this
name and keys the mapping by the stem. -/
def baselineFileName (stem : String) : String :=
  stem ++ ".yaml"

/-- The last element of a list matching the given label under
`baselineLabel`; specification vocabulary for the overwrite behaviour of
`buildBaselines`. -/
def lastMatch (lbl : String) : List String → Option String
  | [] => none
  | n :: ns =>
    match lastMatch lbl ns with
    | some x => some x
    | none => if baselineLabel n == lbl then some n else none

/-! ### Sync cell (mscp-notebook.py lines 190-288) -/

/-- Result of a completed `subprocess.run` call: exit code and captured
stdout and stderr. -/
structure ProcResult where
  returncode : Int
  stdout : String
  stderr : String
deriving DecidableEq

/-- Observable outcome of a `subprocess.run` call: a completed process, a
raised `subprocess.TimeoutExpired`, or any other raised exception.  The
string carried by the raised constructors is the rendering `str(e)` of the
exception. -/
inductive ProcOutcome where
  | ok (r : ProcResult)
  | raisedTimeout (msg : String)
  | raisedOther (msg : String)
deriving DecidableEq

/-- Environment of one sync invocation: whether the repository path exists,
and the outcome each git subprocess would produce if run.  Only the
subprocesses the cell actually reaches are consulted. -/
structure SyncEnv where
  pathExists : Bool
  revParse : ProcOutcome
  clone : ProcOutcome
  setBranches : ProcOutcome
  fetch : ProcOutcome
  checkout : ProcOutcome
  pull : ProcOutcome
deriving DecidableEq

/-- Determination of `_current_branch` (mscp-notebook.py lines 199-209):
`git rev-parse --abbrev-ref HEAD` with exit code 0 yields the stripped
stdout; a non-zero exit or any raised exception leaves it `None`. -/
def currentBranchOf (q : ProcOutcome) : Option String :=
  match q with
  | .ok r => if r.returncode == 0 then some (pyStrip r.stdout) else none
  | .raisedTimeout _ => none
  | .raisedOther _ => none

/-- The Python condition `_needs_switch = _current_branch and _current_branch
!= branch.value`: `None` and the empty string are falsy, so the cell only
switches when a nonempty current branch differs from the desired one. -/
def needsSwitch (cb : Option String) (desired : String) : Bool :=
  match cb with
  | none => false
  | some s => !(s == "") && !(s == desired)

/-- The three mutually exclusive actions of the sync cell. -/
inductive SyncAction where
  | clone
  | switch
  | pull
deriving DecidableEq

/-- Action selection of the sync cell (mscp-notebook.py lines 196-213, 232,
270): `if _needs_clone: ... elif _needs_switch: ... else: ...`. -/
def syncAction (pathExists : Bool) (cb : Option String) (desired : String) :
    SyncAction :=
  if !pathExists then .clone
  else if needsSwitch cb desired then .switch
  else .pull

/-- The Clone action (mscp-notebook.py lines 213-231).  Returns the
accumulated output and whether the ready message (rather than a failure
message) was appended. -/
def runClone (env : SyncEnv) (desired : String) : String × Bool :=
  let o0 := "Cloning mSCP (" ++ desired ++ ")...\n\n"
  match env.clone with
  | .raisedTimeout _ => (o0 ++ "Error: Clone timed out (2 min limit)", false)
  | .raisedOther m => (o0 ++ "Error: " ++ m, false)
  | .ok r =>
    let o1 := o0 ++ r.stdout ++ r.stderr
    if r.returncode == 0 then
      (o1 ++ "\n\nReady: mSCP (" ++ desired ++ ")", true)
    else
      (o1 ++ "\n\nClone failed.", false)

/-- The Switch action (mscp-notebook.py lines 232-269): `git remote
set-branches` (result discarded), `git fetch` (output accumulated), `git
checkout` (output accumulated, exit code decides the final message).  A
raised `TimeoutExpired` in any step jumps to the handler with the output
accumulated so far; exit codes of the first two steps are never
inspected. -/
def runSwitch (env : SyncEnv) (cb desired : String) : String × Bool :=
  let o0 := "Switching from " ++ cb ++ " to " ++ desired ++ "...\n\n"
  match env.setBranches with
  | .raisedTimeout _ => (o0 ++ "Error: Branch switch timed out", false)
  | .raisedOther m => (o0 ++ "Error: " ++ m, false)
  | .ok _ =>
    match env.fetch with
    | .raisedTimeout _ => (o0 ++ "Error: Branch switch timed out", false)
    | .raisedOther m => (o0 ++ "Error: " ++ m, false)
    | .ok r2 =>
      let o1 := o0 ++ r2.stdout ++ r2.stderr
      match env.checkout with
      | .raisedTimeout _ => (o1 ++ "Error: Branch switch timed out", false)
      | .raisedOther m => (o1 ++ "Error: " ++ m, false)
      | .ok r3 =>
        let o2 := o1 ++ r3.stdout ++ r3.stderr
        if r3.returncode == 0 then
          (o2 ++ "\n\nSwitched to: mSCP (" ++ desired ++ ")", true)
        else
          (o2 ++ "\n\nSwitch failed.", false)

/-- The Pull action (mscp-notebook.py lines 270-284): `git pull --ff-only`,
guarded only by a generic exception handler.  The exit code is never
inspected: whenever the subprocess returns, the up-to-date message is
appended. -/
def runPull (env : SyncEnv) (desired : String) : String × Bool :=
  let o0 := "Already on " ++ desired ++ ". Updating...\n\n"
  match env.pull with
  | .raisedTimeout m => (o0 ++ "Error updating: " ++ m, false)
  | .raisedOther m => (o0 ++ "Error updating: " ++ m, false)
  | .ok r =>
    (o0 ++ r.stdout ++ r.stderr ++ "\n\nRepository up to date.", true)

/-- Output and success flag of one sync invocation: empty output and no
action when the button was not pressed, otherwise the output of the selected
action.  The flag records whether the action appended its success message
rather than a failure message. -/
def syncBody (buttonValue : Bool) (desired : String) (env : SyncEnv) :
    String × Option Bool :=
  if buttonValue then
    let cb := if env.pathExists then currentBranchOf env.revParse else none
    match syncAction env.pathExists cb desired with
    | .clone =>
      let r := runClone env desired
      (r.1, some r.2)
    | .switch =>
      let r := runSwitch env (cb.getD "") desired
      (r.1, some r.2)
    | .pull =>
      let r := runPull env desired
      (r.1, some r.2)
  else ("", none)

/-- Observable state after one sync invocation.  The field `token` is the
exported variable `sync_complete = sync_button.value` (mscp-notebook.py line
286), the completion token consumed by the dependent cells. -/
structure SyncResult where
  output : String
  succeeded : Option Bool
  token : Bool
deriving DecidableEq

/-- One invocation of the sync cell (mscp-notebook.py lines 190-288),
parameterised by the value of the sync button, the desired branch and the
subprocess environment. -/
def syncCell (buttonValue : Bool) (desired : String) (env : SyncEnv) :
    SyncResult :=
  { output := (syncBody buttonValue desired env).1
    succeeded := (syncBody buttonValue desired env).2
    token := buttonValue }

/-! ### Generation cell (mscp-notebook.py lines 424-486) -/

/-- Observable outcome of the generation cell: idle (button not pressed),
one of the four descriptive precondition failures, or the invocation of the
generator with the assembled flag list and baseline file path. -/
inductive GenOutcome where
  | idle
  | errRepoNotFound
  | errScriptNotFound
  | errNoFlags
  | errBaselineNotFound
  | invoke (flags : List String) (baselineFile : String)
deriving DecidableEq

/-- Flag list assembly (mscp-notebook.py lines 436-444): the selected flags
in the fixed order `-p`, `-s`, `-D`, `-g`. -/
def genFlags (p s d g : Bool) : List String :=
  (if p then ["-p"] else []) ++ (if s then ["-s"] else []) ++
  (if d then ["-D"] else []) ++ (if g then ["-g"] else [])

/-- The generation cell precondition chain (mscp-notebook.py lines 427-461):
repository path exists, generator script exists, at least one flag selected,
baseline file exists — checked in this order, stopping at the first unmet
one. -/
def generateCell (buttonValue pathExists scriptExists : Bool)
    (p s d g : Bool) (stem : String) (baselineExists : Bool) : GenOutcome :=
  if buttonValue then
    if !pathExists then .errRepoNotFound
    else if !scriptExists then .errScriptNotFound
    else
      let flags := genFlags p s d g
      if flags.isEmpty then .errNoFlags
      else if !baselineExists then .errBaselineNotFound
      else .invoke flags ("baselines/" ++ stem ++ ".yaml")
  else .idle

/-! ### Concrete environments used in counterexamples and witnesses -/

/-- Environment of a failed clone: the path does not exist and `git clone`
exits 128. -/
def envCloneFailed : SyncEnv :=
  { pathExists := false
    revParse := .ok ⟨0, "", ""⟩
    clone := .ok ⟨128, "", "fatal: unable to access remote\n"⟩
    setBranches := .ok ⟨0, "", ""⟩
    fetch := .ok ⟨0, "", ""⟩
    checkout := .ok ⟨0, "", ""⟩
    pull := .ok ⟨0, "", ""⟩ }

/-- Environment of a second failed clone attempt: the clone now times out. -/
def envCloneTimedOut : SyncEnv :=
  { envCloneFailed with
    clone := .raisedTimeout "Command timed out after 120 seconds" }

/-- Environment of a Switch whose fetch step exits non-zero while the
checkout step would succeed with a recognisable marker in its stdout. -/
def envFetchFailed : SyncEnv :=
  { pathExists := true
    revParse := .ok ⟨0, "sonoma\n", ""⟩
    clone := .ok ⟨0, "", ""⟩
    setBranches := .ok ⟨0, "", ""⟩
    fetch := .ok ⟨1, "", "fatal: could not fetch\n"⟩
    checkout := .ok ⟨0, "CHECKOUTRAN\n", ""⟩
    pull := .ok ⟨0, "", ""⟩ }

/-- Environment of a Switch where every step succeeds and each step writes a
recognisable marker to stdout, including the set-branches step. -/
def envSetBranchesOut : SyncEnv :=
  { pathExists := true
    revParse := .ok ⟨0, "sonoma\n", ""⟩
    clone := .ok ⟨0, "", ""⟩
    setBranches := .ok ⟨0, "SETBRANCHOUT\n", ""⟩
    fetch := .ok ⟨0, "FETCHOUT\n", ""⟩
    checkout := .ok ⟨0, "CHECKOUTOUT\n", ""⟩
    pull := .ok ⟨0, "", ""⟩ }

/-- Environment of a Pull hitting a non-fast-forward condition: the
repository is already on the desired branch and `git pull --ff-only` exits 1
with the fatal message on stderr. -/
def envNonFastForward : SyncEnv :=
  { pathExists := true
    revParse := .ok ⟨0, "sequoia\n", ""⟩
    clone := .ok ⟨0, "", ""⟩
    setBranches := .ok ⟨0, "", ""⟩
    fetch := .ok ⟨0, "", ""⟩
    checkout := .ok ⟨0, "", ""⟩
    pull := .ok ⟨1, "", "fatal: Not possible to fast-forward, aborting.\n"⟩ }

/-! ## Theorems about the claims -/

/-- C1: For every sync invocation, the action performed is a total function
of the pair (repository path exists, current branch equals desired branch):
a missing path selects Clone whatever the branch observation is; with the
path present and a determined (nonempty, as every git branch name is)
current branch, a differing branch selects Switch and an equal branch
selects Pull.  Since `syncAction` is a total function into a three-element
type, exactly one action is selected on every input. -/
theorem c1_sync_action_selection (cb0 : Option String) (b desired : String)
    (hb : b ≠ "") :
    syncAction false cb0 desired = SyncAction.clone
    ∧ (b ≠ desired → syncAction true (some b) desired = SyncAction.switch)
    ∧ (b = desired → syncAction true (some b) desired = SyncAction.pull) := by
  refine ⟨by simp [syncAction], fun hbd => ?_, fun hbd => ?_⟩
  · simp [syncAction, needsSwitch, hb, hbd]
  · subst hbd
    simp [syncAction, needsSwitch]

/-- Witness for C1 at concrete inputs: missing path clones, existing path on
`sonoma` with desired `sequoia` switches, existing path on `sequoia` with
desired `sequoia` pulls. -/
theorem c1_sync_action_selection_witness :
    syncAction false (some "sonoma") "sequoia" = SyncAction.clone
    ∧ syncAction true (some "sonoma") "sequoia" = SyncAction.switch
    ∧ syncAction true (some "sequoia") "sequoia" = SyncAction.pull :=
  ⟨(c1_sync_action_selection (some "sonoma") "sonoma" "sequoia" (by decide)).1,
   (c1_sync_action_selection (some "sonoma") "sonoma" "sequoia" (by decide)).2.1 (by decide),
   (c1_sync_action_selection (some "sequoia") "sequoia" "sequoia" (by decide)).2.2 rfl⟩

/-- C9: when the repository path exists but the current branch cannot be
determined (`git rev-parse` exits non-zero or raises), the sync cell selects
the Pull action, never Switch, whatever the desired branch is. -/
theorem c9_undetermined_branch_pulls (desired : String) (q : ProcOutcome)
    (h : ∀ r, q = ProcOutcome.ok r → r.returncode ≠ 0) :
    syncAction true (currentBranchOf q) desired = SyncAction.pull := by
  cases q with
  | ok r =>
    have hr : r.returncode ≠ 0 := h r rfl
    simp [currentBranchOf, syncAction, needsSwitch, hr]
  | raisedTimeout m => simp [currentBranchOf, syncAction, needsSwitch]
  | raisedOther m => simp [currentBranchOf, syncAction, needsSwitch]

/-- Witness for C9: rev-parse exiting 1 while the repository actually sits on
`sonoma` still yields Pull for desired branch `sequoia`. -/
theorem c9_undetermined_branch_pulls_witness :
    syncAction true (currentBranchOf (ProcOutcome.ok ⟨1, "sonoma", ""⟩)) "sequoia" =
      SyncAction.pull :=
  c9_undetermined_branch_pulls "sequoia" _ (by intro r hr; cases hr; decide)

/-- C2 counterexample: two consecutive invocations that both fail (a failed
clone, then a timed-out clone) both export `sync_complete = true`, the
button value — the token after the second invocation is not distinct from
the token after the first. -/
theorem c2_counterexample :
    (syncCell true "sequoia" envCloneFailed).succeeded = some false
    ∧ (syncCell true "sequoia" envCloneTimedOut).succeeded = some false
    ∧ (syncCell true "sequoia" envCloneFailed).token =
        (syncCell true "sequoia" envCloneTimedOut).token := by
  decide

/-- C2 amended: on every invocation (success or failure) the completion
token `sync_complete` is assigned the sync button value, so any two
invocations with the same button value — in particular two consecutive
button presses — yield the same token, not a fresh one. -/
theorem c2_token_is_button_value (bv : Bool) (d1 d2 : String)
    (env1 env2 : SyncEnv) :
    (syncCell bv d1 env1).token = bv
    ∧ (syncCell bv d1 env1).token = (syncCell bv d2 env2).token :=
  ⟨rfl, rfl⟩

/-- C8: the generation cell checks its preconditions in the fixed order
repository path, generator script, flag selection, baseline file, and stops
at the first unmet one: a missing repository reports the repository error
whatever the later inputs are; with repository and script present the flag
check decides before the baseline check is consulted; and when everything
holds the generator is invoked with the flags in fixed order and the derived
baseline path. -/
theorem c8_precondition_chain (scriptExists baselineExists p s d g : Bool)
    (stem : String) :
    generateCell true false scriptExists p s d g stem baselineExists =
      GenOutcome.errRepoNotFound
    ∧ generateCell true true false p s d g stem baselineExists =
      GenOutcome.errScriptNotFound
    ∧ generateCell true true true p s d g stem false =
      (if p || s || d || g then GenOutcome.errBaselineNotFound
       else GenOutcome.errNoFlags)
    ∧ generateCell true true true p s d g stem true =
      (if p || s || d || g then
        GenOutcome.invoke (genFlags p s d g) ("baselines/" ++ stem ++ ".yaml")
       else GenOutcome.errNoFlags) := by
  refine ⟨by simp [generateCell], by simp [generateCell], ?_, ?_⟩
  all_goals
    cases p <;> cases s <;> cases d <;> cases g <;>
      simp [generateCell, genFlags]

/-- C5: evaluation of the sync cell at the non-fast-forward input.  The
repository is on the desired branch, so the Pull action runs; `git pull
--ff-only` exits 1 with the fatal message, yet the cell appends
`Repository up to date.` and reports the success outcome — the exit code of
the pull subprocess is never inspected (mscp-notebook.py lines 273-282),
unlike in the Clone and Switch actions. -/
theorem c5_pull_ignores_exit_code :
    syncAction true (currentBranchOf envNonFastForward.revParse) "sequoia" =
      SyncAction.pull
    ∧ envNonFastForward.pull =
        ProcOutcome.ok ⟨1, "", "fatal: Not possible to fast-forward, aborting.\n"⟩
    ∧ syncCell true "sequoia" envNonFastForward =
      { output := "Already on sequoia. Updating...\n\nfatal: Not possible to fast-forward, aborting.\n\n\nRepository up to date."
        succeeded := some true
        token := true } := by
  decide

/-- C3 counterexample: in the Switch action with the fetch step exiting 1,
the checkout step is still attempted (its marker output reaches the log) and
the final message is the success one, contradicting the claim that a
non-zero exit stops the action and yields a failed outcome. -/
theorem c3_counterexample :
    envFetchFailed.fetch = ProcOutcome.ok ⟨1, "", "fatal: could not fetch\n"⟩
    ∧ pyIn "CHECKOUTRAN" (runSwitch envFetchFailed "sonoma" "sequoia").1 = true
    ∧ (runSwitch envFetchFailed "sonoma" "sequoia").2 = true := by
  decide

/-- C3 amended: a raised `TimeoutExpired` in any step of the Switch action
stops it immediately, keeps the output accumulated so far and reports
failure; but a non-zero exit code of the set-branches or fetch step does not
stop the action — whenever all three subprocesses return, checkout is
attempted and the outcome is decided solely by the checkout exit code. -/
theorem c3_switch_stops_only_on_raise (env : SyncEnv) (cb desired : String) :
    (∀ m, env.setBranches = ProcOutcome.raisedTimeout m →
      runSwitch env cb desired =
        ("Switching from " ++ cb ++ " to " ++ desired ++ "...\n\n" ++
          "Error: Branch switch timed out", false))
    ∧ (∀ m r1, env.setBranches = ProcOutcome.ok r1 →
        env.fetch = ProcOutcome.raisedTimeout m →
      runSwitch env cb desired =
        ("Switching from " ++ cb ++ " to " ++ desired ++ "...\n\n" ++
          "Error: Branch switch timed out", false))
    ∧ (∀ r1 r2 r3, env.setBranches = ProcOutcome.ok r1 →
        env.fetch = ProcOutcome.ok r2 → env.checkout = ProcOutcome.ok r3 →
      runSwitch env cb desired =
        ("Switching from " ++ cb ++ " to " ++ desired ++ "...\n\n" ++
           r2.stdout ++ r2.stderr ++ r3.stdout ++ r3.stderr ++
           (if r3.returncode == 0 then "\n\nSwitched to: mSCP (" ++ desired ++ ")"
            else "\n\nSwitch failed."),
         r3.returncode == 0)) := by
  refine ⟨fun m h1 => ?_, fun m r1 h1 h2 => ?_, fun r1 r2 r3 h1 h2 h3 => ?_⟩
  · simp [runSwitch, h1]
  · simp [runSwitch, h1, h2]
  · simp only [runSwitch, h1, h2, h3]
    rcases Bool.eq_false_or_eq_true (r3.returncode == 0) with h0 | h0 <;>
      simp [h0, String.append_assoc]

/-- Witness for the amended C3 at the concrete fetch-failure environment. -/
theorem c3_switch_stops_only_on_raise_witness :
    runSwitch envFetchFailed "sonoma" "sequoia" =
      ("Switching from sonoma to sequoia...\n\nfatal: could not fetch\nCHECKOUTRAN\n\n\nSwitched to: mSCP (sequoia)",
       true) := by
  have h := (c3_switch_stops_only_on_raise envFetchFailed "sonoma" "sequoia").2.2
    ⟨0, "", ""⟩ ⟨1, "", "fatal: could not fetch\n"⟩ ⟨0, "CHECKOUTRAN\n", ""⟩
    rfl rfl rfl
  rw [h]
  decide

/-- C4 counterexample: the Switch action runs set-branches, fetch and
checkout, each producing a marker on stdout; the log contains the fetch and
checkout markers but not the set-branches marker — the output of the
branch-registration subprocess is discarded (mscp-notebook.py lines 236-250
overwrite `_result` without accumulating), so the log does not contain the
output of every subprocess the action ran. -/
theorem c4_counterexample :
    envSetBranchesOut.setBranches = ProcOutcome.ok ⟨0, "SETBRANCHOUT\n", ""⟩
    ∧ pyIn "SETBRANCHOUT" (runSwitch envSetBranchesOut "sonoma" "sequoia").1 = false
    ∧ pyIn "FETCHOUT" (runSwitch envSetBranchesOut "sonoma" "sequoia").1 = true
    ∧ pyIn "CHECKOUTOUT" (runSwitch envSetBranchesOut "sonoma" "sequoia").1 = true := by
  decide

/-- C4 amended: the log concatenates, in execution order, stdout followed by
stderr of each subprocess whose output the cell accumulates, regardless of
success: fetch then checkout for the Switch action (the set-branches output
is discarded), the single clone subprocess for Clone, and the single pull
subprocess for Pull. -/
theorem c4_log_order (env : SyncEnv) (cb desired : String) :
    (∀ r1 r2 r3, env.setBranches = ProcOutcome.ok r1 →
        env.fetch = ProcOutcome.ok r2 → env.checkout = ProcOutcome.ok r3 →
      (runSwitch env cb desired).1 =
        "Switching from " ++ cb ++ " to " ++ desired ++ "...\n\n" ++
          r2.stdout ++ r2.stderr ++ r3.stdout ++ r3.stderr ++
          (if r3.returncode == 0 then "\n\nSwitched to: mSCP (" ++ desired ++ ")"
           else "\n\nSwitch failed."))
    ∧ (∀ r, env.clone = ProcOutcome.ok r →
      (runClone env desired).1 =
        "Cloning mSCP (" ++ desired ++ ")...\n\n" ++ r.stdout ++ r.stderr ++
          (if r.returncode == 0 then "\n\nReady: mSCP (" ++ desired ++ ")"
           else "\n\nClone failed."))
    ∧ (∀ r, env.pull = ProcOutcome.ok r →
      (runPull env desired).1 =
        "Already on " ++ desired ++ ". Updating...\n\n" ++ r.stdout ++ r.stderr ++
          "\n\nRepository up to date.") := by
  refine ⟨fun r1 r2 r3 h1 h2 h3 => ?_, fun r h => ?_, fun r h => ?_⟩
  · simp only [runSwitch, h1, h2, h3]
    rcases Bool.eq_false_or_eq_true (r3.returncode == 0) with h0 | h0 <;>
      simp [h0, String.append_assoc]
  · simp only [runClone, h]
    rcases Bool.eq_false_or_eq_true (r.returncode == 0) with h0 | h0 <;>
      simp [h0, String.append_assoc]
  · simp [runPull, h]

/-- Witness for the amended C4 at the marker environment: fetch output
precedes checkout output, and the set-branches marker is absent. -/
theorem c4_log_order_witness :
    (runSwitch envSetBranchesOut "sonoma" "sequoia").1 =
      "Switching from sonoma to sequoia...\n\nFETCHOUT\nCHECKOUTOUT\n\n\nSwitched to: mSCP (sequoia)" := by
  have h := (c4_log_order envSetBranchesOut "sonoma" "sequoia").1
    ⟨0, "SETBRANCHOUT\n", ""⟩ ⟨0, "FETCHOUT\n", ""⟩ ⟨0, "CHECKOUTOUT\n", ""⟩
    rfl rfl rfl
  rw [h]
  decide

/-- C6: evaluation of the label function at the two filenames of the claim.
The stem `800-53r5_low` hits the `800-53` clause, which uppercases the whole
stem (`NIST 800-53R5_LOW`), and `cis_lvl1_byod` hits the `byod` clause,
whose `title()` call lowercases the second and later letters of every word
(`CIS Lvl1 Byod`).  Neither equals the label the claim states; the static
fallback table of the same cell (mscp-notebook.py line 347) and the dead
`replace` of `byod` by `BYOD` before `title()` (line 321) document the
intended labels `NIST 800-53r5 Low` and `CIS Lvl1 BYOD`. -/
theorem c6_label_eval :
    baselineLabel "800-53r5_low" = "NIST 800-53R5_LOW"
    ∧ baselineLabel "cis_lvl1_byod" = "CIS Lvl1 Byod"
    ∧ baselineLabel "800-53r5_low" ≠ "NIST 800-53r5 Low"
    ∧ baselineLabel "cis_lvl1_byod" ≠ "CIS Lvl1 BYOD" := by
  decide

/-- Helper for C7: a branch name matching an exclusion pattern differs from
every branch name matching none. -/
theorem beq_false_of_excluded (b k : String) (h : excludedBranch b = true)
    (hk : excludedBranch k = false) : (k == b) = false := by
  cases hkb : (k == b) with
  | true =>
    have hbk := eq_of_beq hkb
    subst hbk
    rw [h] at hk
    exact absurd hk (by decide)
  | false => rfl

/-- Helper for C7: a branch name matching an exclusion pattern is not a key
of the platform table, since none of the fourteen keys matches any
pattern. -/
theorem lookup_platformMap_eq_none (b : String) (h : excludedBranch b = true) :
    lookupAssoc platformMap b = none := by
  have nk : ∀ k : String, excludedBranch k = false → (k == b) = false :=
    fun k hk => beq_false_of_excluded b k h hk
  simp only [platformMap, lookupAssoc]
  simp only [nk "tahoe" (by decide), nk "sequoia" (by decide),
    nk "sonoma" (by decide), nk "ventura" (by decide), nk "monterey" (by decide),
    nk "big_sur" (by decide), nk "catalina" (by decide), nk "ios_26" (by decide),
    nk "ios_18" (by decide), nk "ios_17" (by decide), nk "ios_16" (by decide),
    nk "visionos_26" (by decide), nk "visionos_2" (by decide),
    nk "main" (by decide)]
  rfl

/-- Helper for C7: the branch filtering loop leaves the mapping unchanged at
an excluded branch, whether or not the branch is in the platform table. -/
theorem branchStep_excluded (m : List (String × String)) (b : String)
    (h : excludedBranch b = true) : branchStep m b = m := by
  unfold branchStep
  rw [lookup_platformMap_eq_none b h]
  cases hA : (pyStartsWith b "dev" || pyStartsWith b "nist-" || pyStartsWith b "505-") with
  | true => simp [hA]
  | false =>
    have hB : (pyIn "_fix" b || pyIn "_typo" b || pyIn "create-" b) = true := by
      have h2 := h
      unfold excludedBranch at h2
      rw [hA] at h2
      simpa using h2
    simp [hA, hB]

/-- C7: branch names matching an exclusion pattern (prefix `dev`, `nist-`,
`505-` or substring `_fix`, `_typo`, `create-`) are excluded from the
resulting display mapping regardless of table membership: the mapping built
from any raw branch list equals the mapping built from the list with all
excluded names removed, because the loop body is the identity at an excluded
name. -/
theorem c7_exclusion (bs : List String) (b : String)
    (m : List (String × String)) :
    buildBranchDisplay bs =
      buildBranchDisplay (bs.filter (fun x => !excludedBranch x))
    ∧ (excludedBranch b = true → branchStep m b = m) := by
  constructor
  · show bs.foldl branchStep [] =
      (bs.filter (fun x => !excludedBranch x)).foldl branchStep []
    generalize [] = m0
    induction bs generalizing m0 with
    | nil => rfl
    | cons x xs ih =>
      cases hx : excludedBranch x with
      | true =>
        simp only [List.foldl_cons, List.filter_cons]
        rw [branchStep_excluded m0 x hx]
        simp only [hx, Bool.not_true]
        simpa using ih m0
      | false =>
        simp only [List.foldl_cons, List.filter_cons, hx, Bool.not_false]
        simpa using ih (branchStep m0 x)
  · exact fun h => branchStep_excluded m b h

/-- Witness for C7 at a concrete branch list: the mapping ignores the
excluded name `dev-foo`, and the loop body is the identity at it. -/
theorem c7_exclusion_witness :
    buildBranchDisplay ["dev-foo", "sequoia"] =
      buildBranchDisplay (["dev-foo", "sequoia"].filter (fun x => !excludedBranch x))
    ∧ branchStep [] "dev-foo" = [] :=
  ⟨(c7_exclusion ["dev-foo", "sequoia"] "dev-foo" []).1,
   (c7_exclusion ["dev-foo", "sequoia"] "dev-foo" []).2 (by decide)⟩

/-! ### Association list lemmas for C10 -/

/-- Unequal strings compare `false` under `==`. -/
theorem beq_false_of_ne (a b : String) (h : a ≠ b) : (a == b) = false := by
  cases hab : (a == b) with
  | true => exact absurd (eq_of_beq hab) h
  | false => rfl

theorem keysOf_cons (q : String × String) (m : List (String × String)) :
    keysOf (q :: m) = q.1 :: keysOf m := rfl

theorem filterKey_cons_pos (k : String) (p : String × String)
    (m : List (String × String)) (h : (p.1 == k) = true) :
    filterKey k (p :: m) = p :: filterKey k m := by
  simp [filterKey, List.filter_cons, h]

theorem filterKey_cons_neg (k : String) (p : String × String)
    (m : List (String × String)) (h : (p.1 == k) = false) :
    filterKey k (p :: m) = filterKey k m := by
  simp [filterKey, List.filter_cons, h]

theorem insertAssoc_cons_pos (k v k1 v1 : String) (rest : List (String × String))
    (h : (k1 == k) = true) :
    insertAssoc ((k1, v1) :: rest) k v = (k, v) :: rest := by
  simp [insertAssoc, h]

theorem insertAssoc_cons_neg (k v k1 v1 : String) (rest : List (String × String))
    (h : (k1 == k) = false) :
    insertAssoc ((k1, v1) :: rest) k v = (k1, v1) :: insertAssoc rest k v := by
  simp [insertAssoc, h]

/-- A key absent from an association list filters to nothing. -/
theorem filterKey_nil_of_not_mem (k : String) (m : List (String × String))
    (h : ¬ k ∈ keysOf m) : filterKey k m = [] := by
  induction m with
  | nil => rfl
  | cons q rest ih =>
    have hq : (q.1 == k) = false := by
      apply beq_false_of_ne
      intro he
      exact h (by rw [keysOf_cons, he]; exact List.mem_cons_self _ _)
    rw [filterKey_cons_neg k q rest hq]
    exact ih (fun hk => h (by rw [keysOf_cons]; exact List.mem_cons_of_mem _ hk))

/-- Inserting under a different key does not change the entries of a key. -/
theorem filterKey_insert_ne (m : List (String × String)) (k v lbl : String)
    (h : k ≠ lbl) : filterKey lbl (insertAssoc m k v) = filterKey lbl m := by
  have hkl : (k == lbl) = false := beq_false_of_ne k lbl h
  induction m with
  | nil =>
    show filterKey lbl [(k, v)] = filterKey lbl []
    rw [filterKey_cons_neg lbl (k, v) [] hkl]
  | cons q rest ih =>
    rcases q with ⟨k1, v1⟩
    cases hk1 : (k1 == k) with
    | true =>
      rw [insertAssoc_cons_pos k v k1 v1 rest hk1]
      rw [filterKey_cons_neg lbl (k, v) rest hkl]
      have hk1l : (k1 == lbl) = false := by
        rw [eq_of_beq hk1]; exact hkl
      rw [filterKey_cons_neg lbl (k1, v1) rest hk1l]
    | false =>
      rw [insertAssoc_cons_neg k v k1 v1 rest hk1]
      cases hk1l : (k1 == lbl) with
      | true =>
        rw [filterKey_cons_pos lbl (k1, v1) _ hk1l,
          filterKey_cons_pos lbl (k1, v1) rest hk1l, ih]
      | false =>
        rw [filterKey_cons_neg lbl (k1, v1) _ hk1l,
          filterKey_cons_neg lbl (k1, v1) rest hk1l, ih]

/-- With duplicate-free keys, inserting a key makes its entries exactly the
inserted pair. -/
theorem filterKey_insert_self (m : List (String × String)) (lbl v : String)
    (h : (keysOf m).Nodup) : filterKey lbl (insertAssoc m lbl v) = [(lbl, v)] := by
  induction m with
  | nil =>
    show filterKey lbl [(lbl, v)] = [(lbl, v)]
    rw [filterKey_cons_pos lbl (lbl, v) [] (beq_self_eq_true lbl)]
    rfl
  | cons q rest ih =>
    rcases q with ⟨k1, v1⟩
    rw [keysOf_cons, List.nodup_cons] at h
    cases hk1 : (k1 == lbl) with
    | true =>
      rw [insertAssoc_cons_pos lbl v k1 v1 rest hk1]
      rw [filterKey_cons_pos lbl (lbl, v) rest (beq_self_eq_true lbl)]
      have hni : ¬ lbl ∈ keysOf rest := by
        have hlk : k1 = lbl := eq_of_beq hk1
        exact hlk ▸ h.1
      rw [filterKey_nil_of_not_mem lbl rest hni]
    | false =>
      rw [insertAssoc_cons_neg lbl v k1 v1 rest hk1]
      rw [filterKey_cons_neg lbl (k1, v1) _ hk1]
      exact ih h.2

/-- Keys after an insertion come from the original keys or are the inserted
key. -/
theorem mem_keys_insertAssoc (m : List (String × String)) (k v x : String)
    (h : x ∈ keysOf (insertAssoc m k v)) : x ∈ keysOf m ∨ x = k := by
  induction m with
  | nil =>
    right
    simpa [keysOf, insertAssoc] using h
  | cons q rest ih =>
    rcases q with ⟨k1, v1⟩
    cases hk1 : (k1 == k) with
    | true =>
      rw [insertAssoc_cons_pos k v k1 v1 rest hk1, keysOf_cons] at h
      rcases List.mem_cons.mp h with rfl | hx
      · right; rfl
      · left; rw [keysOf_cons]; exact List.mem_cons_of_mem _ hx
    | false =>
      rw [insertAssoc_cons_neg k v k1 v1 rest hk1, keysOf_cons] at h
      rcases List.mem_cons.mp h with rfl | hx
      · left; rw [keysOf_cons]; exact List.mem_cons_self _ _
      · rcases ih hx with hx' | hx'
        · left; rw [keysOf_cons]; exact List.mem_cons_of_mem _ hx'
        · right; exact hx'

/-- Insertion preserves duplicate-freedom of the keys, as for a Python
dict. -/
theorem nodup_keys_insertAssoc (m : List (String × String)) (k v : String)
    (h : (keysOf m).Nodup) : (keysOf (insertAssoc m k v)).Nodup := by
  induction m with
  | nil => simp [keysOf, insertAssoc]
  | cons q rest ih =>
    rcases q with ⟨k1, v1⟩
    rw [keysOf_cons, List.nodup_cons] at h
    cases hk1 : (k1 == k) with
    | true =>
      rw [insertAssoc_cons_pos k v k1 v1 rest hk1, keysOf_cons, List.nodup_cons]
      refine ⟨?_, h.2⟩
      have hlk : k1 = k := eq_of_beq hk1
      exact hlk ▸ h.1
    | false =>
      rw [insertAssoc_cons_neg k v k1 v1 rest hk1, keysOf_cons, List.nodup_cons]
      refine ⟨?_, ih h.2⟩
      intro hx
      rcases mem_keys_insertAssoc rest k v k1 hx with hx' | hx'
      · exact h.1 hx'
      · rw [hx'] at hk1
        simp at hk1

/-- The entries of a label in the baseline fold are determined by the last
stem of the list mapping to that label. -/
theorem foldl_baselines_filterKey (lbl : String) (names : List String) :
    ∀ m, (keysOf m).Nodup →
      filterKey lbl (names.foldl (fun acc n => insertAssoc acc (baselineLabel n) n) m) =
        (match lastMatch lbl names with
         | none => filterKey lbl m
         | some x => [(lbl, x)]) := by
  induction names with
  | nil => intro m _; rfl
  | cons n ns ih =>
    intro m hm
    rw [List.foldl_cons]
    rw [ih (insertAssoc m (baselineLabel n) n)
      (nodup_keys_insertAssoc m (baselineLabel n) n hm)]
    cases hlm : lastMatch lbl ns with
    | some x => simp [lastMatch, hlm]
    | none =>
      cases hn : (baselineLabel n == lbl) with
      | true =>
        have hlab : baselineLabel n = lbl := eq_of_beq hn
        simp [lastMatch, hlm, hn]
        rw [hlab, filterKey_insert_self m lbl n hm]
      | false =>
        have hne : baselineLabel n ≠ lbl := by
          intro he
          rw [he] at hn
          simp at hn
        simp [lastMatch, hlm, hn]
        exact filterKey_insert_ne m (baselineLabel n) n lbl hne

/-- The last matching stem belongs to the list. -/
theorem lastMatch_mem (lbl x : String) : ∀ ns : List String,
    lastMatch lbl ns = some x → x ∈ ns := by
  intro ns
  induction ns with
  | nil => intro h; exact absurd h (by simp [lastMatch])
  | cons n t ih =>
    intro h
    cases hlm : lastMatch lbl t with
    | some y =>
      have hyx : y = x := by
        simp only [lastMatch, hlm] at h
        simpa using h
      exact List.mem_cons_of_mem n (ih (hyx ▸ hlm))
    | none =>
      simp only [lastMatch, hlm] at h
      cases hn : (baselineLabel n == lbl) with
      | true =>
        have hnx : n = x := by
          rw [hn] at h
          simpa using h
        exact hnx ▸ List.mem_cons_self n t
      | false =>
        rw [hn] at h
        simp at h

/-- If no stem of the list matches the label, every member fails the label
test. -/
theorem lastMatch_none (lbl : String) : ∀ ns : List String,
    lastMatch lbl ns = none → ∀ n, n ∈ ns → (baselineLabel n == lbl) = false := by
  intro ns
  induction ns with
  | nil => intro _ n hn; exact absurd hn (List.not_mem_nil n)
  | cons a t ih =>
    intro h n hn
    cases hlm : lastMatch lbl t with
    | some y => simp [lastMatch, hlm] at h
    | none =>
      simp only [lastMatch, hlm] at h
      cases hn' : (baselineLabel a == lbl) with
      | true =>
        rw [hn'] at h
        simp at h
      | false =>
        rcases List.mem_cons.mp hn with rfl | hmem
        · exact hn'
        · exact ih hlm n hmem

/-- The Python string order is reflexive. -/
theorem pyLE_refl (s : String) : pyLE s s = true := by
  suffices hall : ∀ cs : List Char, leChars cs cs = true from hall s.data
  intro cs
  induction cs with
  | nil => rfl
  | cons c cs ih => simp [leChars, ih]

/-- In a list sorted by a reflexive string order, every stem matching the
label is bounded by the last matching stem. -/
theorem le_lastMatch (le : String → String → Bool)
    (hrefl : ∀ s, le s s = true) (lbl : String) : ∀ ns : List String,
    List.Pairwise (fun a b => le a b = true) ns →
    ∀ n, n ∈ ns → (baselineLabel n == lbl) = true →
    ∀ x, lastMatch lbl ns = some x → le n x = true := by
  intro ns
  induction ns with
  | nil => intro _ n hn; exact absurd hn (List.not_mem_nil n)
  | cons a t ih =>
    intro hpw n hn hmatch x hx
    have hpw' := List.pairwise_cons.mp hpw
    cases hlm : lastMatch lbl t with
    | some y =>
      have hyx : y = x := by
        simp only [lastMatch, hlm] at hx
        simpa using hx
      rcases List.mem_cons.mp hn with rfl | hmem
      · exact hpw'.1 x (hyx ▸ lastMatch_mem lbl y t hlm)
      · exact ih hpw'.2 n hmem hmatch x (hyx ▸ hlm)
    | none =>
      cases ha : (baselineLabel a == lbl) with
      | true =>
        have hax : a = x := by
          simp only [lastMatch, hlm, ha] at hx
          simpa using hx
        rcases List.mem_cons.mp hn with rfl | hmem
        · exact hax ▸ hrefl n
        · rw [lastMatch_none lbl t hlm n hmem] at hmatch
          exact absurd hmatch (by decide)
      | false =>
        exfalso
        simp only [lastMatch, hlm, ha] at hx
        rw [if_neg (by decide)] at hx
        exact Option.noConfusion hx

/-- C10: the baseline scan visits the stems in the order of their sorted
file names.  In the display mapping it builds, every label has exactly the
entries determined by the last matching stem — one entry, bound to the stem
of the file name that sorts last among those sharing the label (none if no
stem matches), the earlier stems being silently absent; and the file name of
that last matching stem indeed bounds the file name of every matching stem
in the sort order. -/
theorem c10_duplicate_labels (names : List String) (lbl : String)
    (hs : List.Pairwise
      (fun a b => pyLE (baselineFileName a) (baselineFileName b) = true) names) :
    filterKey lbl (buildBaselines names) =
      (match lastMatch lbl names with
       | none => []
       | some x => [(lbl, x)])
    ∧ (∀ n, n ∈ names → (baselineLabel n == lbl) = true →
        ∀ x, lastMatch lbl names = some x →
          pyLE (baselineFileName n) (baselineFileName x) = true) := by
  constructor
  · have h := foldl_baselines_filterKey lbl names [] (by simp [keysOf])
    unfold buildBaselines
    rw [h]
    cases hlm : lastMatch lbl names <;> simp [hlm, filterKey]
  · exact le_lastMatch
      (fun a b => pyLE (baselineFileName a) (baselineFileName b))
      (fun s => pyLE_refl (baselineFileName s)) lbl names hs

/-- Witness for C10: scanning the files `800-171.yaml` and
`800-171_custom.yaml`, whose stems are both labelled `NIST SP 800-171`,
leaves a single entry bound to the later stem; the earlier stem is absent
from the mapping. -/
theorem c10_duplicate_labels_witness :
    filterKey "NIST SP 800-171" (buildBaselines ["800-171", "800-171_custom"]) =
      [("NIST SP 800-171", "800-171_custom")]
    ∧ pyLE (baselineFileName "800-171") (baselineFileName "800-171_custom") = true := by
  have h := c10_duplicate_labels ["800-171", "800-171_custom"] "NIST SP 800-171"
    (by decide)
  constructor
  · rw [h.1]
    decide
  · exact h.2 "800-171" (by decide) (by decide) "800-171_custom" (by decide)

end MSCP
